import Mathlib

/-!
Verification of the FDA 510(k) crawl-and-extract pipeline
(`BioLLM/fda_data_parsing/parsing.py`) against its natural-language
specification.  The Python source is shallowly embedded: pure helpers become
Lean functions, the browser, the network and the PDF parser are explicit
oracle inputs, and the stateful crawl loop becomes a fuel-indexed step
function over an explicit state record.
-/

namespace FdaCrawl

/-! ## String helpers

The Python source uses `str.lower`, `str.strip`, `str.endswith` and the
substring operator `in`.  These are modelled over the character lists of
Lean strings so that every predicate is executable and decidable. -/

/-- `listLeads needle hay` is true when `needle` is an initial segment of
`hay` (used to express Python's substring test). -/
def listLeads : List Char → List Char → Bool
  | [], _ => true
  | _ :: _, [] => false
  | a :: as, b :: bs => a = b && listLeads as bs

/-- Python's `needle in hay` substring test. -/
def strContains (hay needle : String) : Bool :=
  (List.range (hay.data.length + 1)).any fun i => listLeads needle.data (hay.data.drop i)

/-- Python's `hay.endswith(suffix)`. -/
def strEndsWith (hay suffix : String) : Bool :=
  listLeads suffix.data.reverse hay.data.reverse

/-- Python's `s.lower()` (ASCII case folding, as used by the source). -/
def strLower (s : String) : String := ⟨s.data.map Char.toLower⟩

/-- Python's `s.strip()`: whitespace removed from both ends. -/
def strTrim (s : String) : String :=
  ⟨((s.data.dropWhile Char.isWhitespace).reverse.dropWhile Char.isWhitespace).reverse⟩

/-- Python's `sep.join(parts)`. -/
def strJoin (sep : String) : List String → String
  | [] => ""
  | [s] => s
  | s :: rest => s ++ sep ++ strJoin sep rest

/-! ## PDFTextExtractor (`extract_pdf_text_with_session`, parsing.py 93-141)

One fetch attempt either raises inside `session.get` or yields an HTTP
response; parsing the body with `fitz` either raises or yields the list of
per-page texts.  Exceptions anywhere in the attempt body are caught by the
retry loop. -/

/-- The headers and final URL of one HTTP response (`r.url`,
`Content-Type`, `Content-Disposition`; absent headers are `""` as in the
source's `(r.headers.get(...) or "")`). -/
structure Response where
  finalUrl : String
  contentType : String
  contentDispo : String
deriving DecidableEq

/-- Outcome of `fitz.open` + per-page `get_text` on the response body:
either the PDF library raises, or it yields the pages' texts. -/
inductive ParseOutcome where
  | raise
  | pages (texts : List String)
deriving DecidableEq

/-- What the environment does on one attempt: `session.get` raises, or it
returns a response whose body parses as `p`. -/
inductive AttemptInput where
  | getRaise
  | got (r : Response) (p : ParseOutcome)
deriving DecidableEq

/-- The body of one `try:` block of `extract_pdf_text_with_session`:
block-page check, three-signal PDF validation, parse, empty-text check.
`Except.error ()` is an exception reaching the `except` handler;
`Except.ok v` is a `return v` from the attempt. -/
def attemptBody (r : Response) (p : ParseOutcome) : Except Unit (Option String) :=
  if strContains (strLower r.finalUrl) "apology_objects" then .ok none
  else
    let ctype := strLower r.contentType
    let dispo := strLower r.contentDispo
    let is_pdf := strEndsWith (strLower r.finalUrl) ".pdf"
        || strContains ctype "application/pdf"
        || strContains dispo ".pdf"
    if !is_pdf then .ok none
    else
      match p with
      | .raise => .error ()
      | .pages texts =>
          let plain := strTrim (strJoin "\n" texts)
          if plain = "" then .ok none else .ok (some plain)

/-- One full attempt, starting at `session.get`. -/
def runAttempt : AttemptInput → Except Unit (Option String)
  | .getRaise => .error ()
  | .got r p => attemptBody r p

/-- The retry loop `for attempt in range(1, tries + 1)` with exponential
backoff.  Returns the result, the number of attempts made, and the list of
back-off sleeps (`1.2 ** attempt`, modelled as the exact rational `6/5`).
`attempt` is the 1-based index of the current attempt; the second argument
is the number of attempts still allowed. -/
def extractGo (input : Nat → AttemptInput) (attempt : Nat) :
    Nat → Option String × Nat × List ℚ
  | 0 => (none, 0, [])
  | remaining + 1 =>
      match runAttempt (input attempt) with
      | .ok v => (v, 1, [])
      | .error _ =>
          if remaining = 0 then (none, 1, [])
          else
            let rest := extractGo input (attempt + 1) remaining
            (rest.1, rest.2.1 + 1, ((6 : ℚ)/5) ^ attempt :: rest.2.2)

/-- `extract_pdf_text_with_session` (parsing.py 93-141) over an attempt
oracle; the default `tries` in the source is 3. -/
def extract_pdf_text_with_session (input : Nat → AttemptInput) (tries : Nat) :
    Option String × Nat × List ℚ :=
  extractGo input 1 tries

/-! ## DetailPageProcessor (`find_best_pdf_link_on_detail`, parsing.py
506-555, and `process_detail_page`, parsing.py 590-611) -/

/-- One `<a href=...>` element of a detail page: its visible text and its
`href` attribute (`""` when the attribute is falsy). -/
structure Anchor where
  text : String
  href : String
deriving DecidableEq

/-- `SUMMARY_KEYWORDS` (parsing.py 29-33). -/
def SUMMARY_KEYWORDS : List String :=
  ["summary", "decision summary", "summary (english)"]

/-- `BACKUP_PDF_KEYWORDS` (parsing.py 34-42). -/
def BACKUP_PDF_KEYWORDS : List String :=
  ["decision letter", "substantial equivalence", "se letter", "clearance",
   "letter", "decision", "determination"]

/-- `is_pdfish` (parsing.py 529): the lowered href ends in or contains a
PDF indicator. -/
def is_pdfish (a : Anchor) : Bool :=
  strEndsWith (strLower a.href) ".pdf" || strContains (strLower a.href) "pdf"

/-- The summary-keyword test of parsing.py 534: some summary keyword
occurs in the lowered stripped text or in the lowered href. -/
def summaryHit (a : Anchor) : Bool :=
  SUMMARY_KEYWORDS.any (fun k => strContains (strLower (strTrim a.text)) k)
    || SUMMARY_KEYWORDS.any (fun k => strContains (strLower a.href) k)

/-- The backup-keyword test of parsing.py 539. -/
def backupHit (a : Anchor) : Bool :=
  BACKUP_PDF_KEYWORDS.any (fun k => strContains (strLower (strTrim a.text)) k)
    || BACKUP_PDF_KEYWORDS.any (fun k => strContains (strLower a.href) k)

/-- The single scan loop of `find_best_pdf_link_on_detail`: builds the
`cand_summary`, `cand_backup`, `cand_any_pdf` lists in document order. -/
def classifyAnchors : List Anchor → List String × List String × List String
  | [] => ([], [], [])
  | a :: rest =>
      let (s, b, y) := classifyAnchors rest
      if a.href = "" then (s, b, y)
      else if !(is_pdfish a) then (s, b, y)
      else if summaryHit a then (a.href :: s, b, y)
      else if backupHit a then (s, a.href :: b, y)
      else (s, b, a.href :: y)

/-- `find_best_pdf_link_on_detail` (parsing.py 506-555): head of the
highest non-empty tier; `(none, "")` when no PDF-ish link exists. -/
def find_best_pdf_link_on_detail (anchors : List Anchor) : Option String × String :=
  match classifyAnchors anchors with
  | (u :: _, _, _) => (some u, "summary")
  | ([], u :: _, _) => (some u, "backup")
  | ([], [], u :: _) => (some u, "any")
  | ([], [], []) => (none, "")

/-- The tier of one anchor, written after the spec's words ("tier 1: text
or URL contains a summary keyword; tier 2: ... a backup keyword; tier 3:
any link ending in or containing a PDF indicator").  Used as the spec side
of the refinement theorem for the tiered selection. -/
def anchorTier (a : Anchor) : Option Nat :=
  if a.href = "" then none
  else if !(is_pdfish a) then none
  else if summaryHit a then some 1
  else if backupHit a then some 2
  else some 3

/-- Declarative selection following the spec's words: the first link in
document order within the highest non-empty tier. -/
def specSelectLink (anchors : List Anchor) : Option String × String :=
  match anchors.find? (fun a => anchorTier a == some 1) with
  | some a => (some a.href, "summary")
  | none =>
      match anchors.find? (fun a => anchorTier a == some 2) with
      | some a => (some a.href, "backup")
      | none =>
          match anchors.find? (fun a => anchorTier a == some 3) with
          | some a => (some a.href, "any")
          | none => (none, "")

/-- `urllib.parse.urljoin` restricted to the shapes the crawler produces:
an absolute URL (one containing a scheme separator) is returned unchanged,
anything else is resolved against the base URL's last directory. -/
def urljoin (base url : String) : String :=
  if strContains url "://" then url
  else String.mk ((base.data.reverse.dropWhile (fun c => c ≠ '/')).reverse) ++ url

/-- One listing row as parsed by `collect_page_rows` (parsing.py 469-503). -/
structure RowData where
  k_number : String
  device_name : String
  applicant : String
  decision_date : String
  detail_link : String
deriving DecidableEq

/-- One output record as written by the crawl (parsing.py 611, 717). -/
structure Record where
  k_number : String
  device_name : String
  applicant : String
  decision_date : String
  detail_link : String
  summary_link : Option String
  summary_text : Option String
  pdf_type : String
deriving DecidableEq

/-- `process_detail_page` (parsing.py 590-611).  `anchors` and
`currentUrl` describe the detail page; `inferredK` is the result of the
`infer_k_number_from_page` regex scan of the page body (parsing.py
580-587); `fetchText` is what `extract_pdf_text_with_session` returns for
the selected link (the network oracle). -/
def process_detail_page (anchors : List Anchor) (currentUrl : String)
    (inferredK : Option String) (fetchText : Option String) (it : RowData) : Record :=
  let sel := find_best_pdf_link_on_detail anchors
  let summary_link := sel.1.map (fun u => urljoin currentUrl u)
  let summary_text := match sel.1 with
    | some _ => fetchText
    | none => none
  let k := match inferredK with
    | some knum => knum
    | none => it.k_number
  { k_number := k, device_name := it.device_name, applicant := it.applicant,
    decision_date := it.decision_date, detail_link := it.detail_link,
    summary_link := summary_link, summary_text := summary_text, pdf_type := sel.2 }

/-! ## `open_in_new_tab_and_process` (parsing.py 558-577)

The browser's window set is a list of handles plus the focused handle.
`window.open` may silently fail to create the tab (`opens = false`); the
`WebDriverWait(..., number_of_windows_to_be(2))` step is modelled as
succeeding exactly when the window count is 2. -/

/-- Browser window state: open handles and the focused handle. -/
structure Win where
  windows : List String
  focus : String
deriving DecidableEq

/-- Result of `process_fn`: a value, or an exception. -/
inductive ProcOutcome (α : Type) where
  | ok (a : α)
  | raise
deriving DecidableEq

/-- How `open_in_new_tab_and_process` exits: a normal return or an
exception propagating to the caller. -/
inductive TabExit (α : Type) where
  | ret (a : α)
  | exn
deriving DecidableEq

/-- `driver.execute_script("window.open(...)")`: adds the new handle when
the browser honours the request. -/
def window_open (w : Win) (h : String) (opens : Bool) : Win :=
  if opens then ⟨w.windows ++ [h], w.focus⟩ else w

/-- `driver.switch_to.window(h)`. -/
def switch_to (w : Win) (h : String) : Win := ⟨w.windows, h⟩

/-- `driver.close()`: closes the focused window. -/
def close_current (w : Win) : Win := ⟨w.windows.erase w.focus, w.focus⟩

/-- `open_in_new_tab_and_process` (parsing.py 558-577): remember the main
handle, open the tab, wait for two windows, switch to the non-main handle,
run `process_fn` inside `try`, and in `finally` close the tab and switch
back.  A failed wait or an empty non-main handle list raises without
cleanup, exactly as in the source. -/
def open_in_new_tab_and_process {α : Type} (st : Win) (newHandle : String)
    (opens : Bool) (proc : ProcOutcome α) : TabExit α × Win :=
  let main := st.focus
  let st1 := window_open st newHandle opens
  if st1.windows.length = 2 then
    match st1.windows.filter (fun h => h ≠ main) with
    | [] => (TabExit.exn, st1)
    | h :: _ =>
        let st2 := switch_to st1 h
        let st3 := switch_to (close_current st2) main
        match proc with
        | ProcOutcome.ok a => (TabExit.ret a, st3)
        | ProcOutcome.raise => (TabExit.exn, st3)
  else (TabExit.exn, st1)

/-! ## PaginationStrategy (`try_next_page`, parsing.py 360-466)

The browser and site are an oracle world: whether the `'>'` arrow exists,
what page each navigation lands on (`none` meaning the strategy body
raised), whether `int(params.get("PAGENUM", ["1"])[0])` parses, and
whether a link with the incremented offset exists.  A landed-on page is
summarised by its first-row signature and its result-row count, which is
all `try_next_page` inspects. -/

/-- A listing page as seen by the pagination check: `first_row_signature`
and `count_total_results`. -/
structure Page where
  sig : String
  rows : Nat
deriving DecidableEq

/-- The pagination attempts, labelled with the offset they target. -/
inductive AttemptKind where
  | arrow
  | numLink (target : Int)
  | directUrl (target : Int)
deriving DecidableEq

/-- The oracle world for one `try_next_page` call. -/
structure PagWorld where
  /-- `first_row_signature` of the page before any attempt. -/
  beforeSig : String
  /-- `int(params.get("PAGENUM", ["1"])[0])` on the current URL; `none`
  when the conversion raises. -/
  pagenum : Option Int
  /-- whether `//a[text()='>']` finds an element. -/
  arrowPresent : Bool
  /-- page reached by following the arrow; `none` = the attempt raised. -/
  arrowPage : Option Page
  /-- whether a link whose href contains `PAGENUM=<cur+10>` exists. -/
  numLinkPresent : Bool
  /-- page reached through that link; `none` = the attempt raised. -/
  numPage : Option Page
  /-- page reached by navigating to the reconstructed URL; `none` = the
  attempt raised. -/
  urlPage : Option Page
deriving DecidableEq

/-- Strategy 3 of `try_next_page` (parsing.py 436-463): rebuild the URL
with `PAGENUM` incremented by 10 and navigate to it; accepted only when
the signature changed, in which case the row count decides the result. -/
def tnp_strategy3 (w : PagWorld) (made : List AttemptKind) : Bool × List AttemptKind :=
  match w.pagenum with
  | none => (false, made)
  | some n =>
      let made := made ++ [AttemptKind.directUrl (n + 10)]
      match w.urlPage with
      | none => (false, made)
      | some p =>
          if p.sig = w.beforeSig then (false, made)
          else (decide (0 < p.rows), made)

/-- Strategy 2 of `try_next_page` (parsing.py 405-434): follow a page
number link whose href contains the incremented offset; on a raised
attempt or an unchanged signature, fall through to strategy 3. -/
def tnp_strategy2 (w : PagWorld) (made : List AttemptKind) : Bool × List AttemptKind :=
  match w.pagenum with
  | none => tnp_strategy3 w made
  | some n =>
      if w.numLinkPresent then
        let made := made ++ [AttemptKind.numLink (n + 10)]
        match w.numPage with
        | none => tnp_strategy3 w made
        | some p =>
            if p.sig = w.beforeSig then tnp_strategy3 w made
            else (decide (0 < p.rows), made)
      else tnp_strategy3 w made

/-- `try_next_page` (parsing.py 360-466).  Returns the reported advance
and the list of attempts actually made, in order. -/
def try_next_page (w : PagWorld) : Bool × List AttemptKind :=
  if w.arrowPresent then
    match w.arrowPage with
    | none => tnp_strategy2 w [AttemptKind.arrow]
    | some p =>
        if p.sig = w.beforeSig then tnp_strategy2 w [AttemptKind.arrow]
        else (decide (0 < p.rows), [AttemptKind.arrow])
  else tnp_strategy2 w []

/-- The attempts the world makes available, in priority order, paired with
the page each would land on (`none` = that attempt raises). -/
def outcomesOf (w : PagWorld) : List (AttemptKind × Option Page) :=
  (if w.arrowPresent then [(AttemptKind.arrow, w.arrowPage)] else []) ++
  (match w.pagenum with
   | some n =>
       (if w.numLinkPresent then [(AttemptKind.numLink (n + 10), w.numPage)] else []) ++
       [(AttemptKind.directUrl (n + 10), w.urlPage)]
   | none => [])

/-- Whether an attempt outcome changed the page signature. -/
def sigChanged (before : String) : Option Page → Bool
  | some p => decide (p.sig ≠ before)
  | none => false

/-- Whether an attempt outcome satisfies the spec's acceptance condition:
signature changed and at least one result row. -/
def pagAccepted (before : String) : Option Page → Bool
  | some p => decide (p.sig ≠ before) && decide (0 < p.rows)
  | none => false

/-- The claim's reading of `try_next_page`: strategies are tried until one
satisfies both acceptance conditions or all are exhausted, so the advance
is reported true exactly when some available attempt satisfies both. -/
def try_next_page_spec (w : PagWorld) : Bool :=
  (outcomesOf w).any fun o => pagAccepted w.beforeSig o.2

/-- Elements of a list up to and including the first one satisfying the
predicate. -/
def takeThrough {α : Type} (p : α → Bool) : List α → List α
  | [] => []
  | a :: as => if p a then [a] else a :: takeThrough p as

/-- The amended declarative description of `try_next_page`: attempts run
in priority order only until the first one that changes the signature;
that attempt alone decides the result (true iff its row count is
positive), and if no attempt changes the signature the advance is false. -/
def try_next_page_amended (w : PagWorld) : Bool × List AttemptKind :=
  let os := outcomesOf w
  let b := match os.find? (fun o => sigChanged w.beforeSig o.2) with
    | some (_, some p) => decide (0 < p.rows)
    | _ => false
  (b, (takeThrough (fun o => sigChanged w.beforeSig o.2) os).map Prod.fst)

/-! ## CrawlOrchestrator (`crawl_fda_510k`, parsing.py 617-744)

The site and browser are an oracle: `listing c` is the raw result-row list
of the listing the browser shows in state `c`, and `advance c` is the
verdict of `try_next_page` there (`true` meaning the browser moved to
listing `c + 1`).  Each raw row either fails to parse (skipped inside
`collect_page_rows`), or parses and then either raises while its detail
tab is processed (caught at parsing.py 713-715), or yields a detail page
described by its anchors, current URL, inferred K-number and the text the
PDF fetch would return. -/

/-- One raw row of a listing page together with its detail-page fate. -/
inductive RawRow where
  /-- the row raises while being parsed in `collect_page_rows` and is
  skipped there (parsing.py 500-502). -/
  | bad
  /-- the row parses, but opening or processing its detail tab raises a
  `TimeoutException`/`WebDriverException` (parsing.py 713-715). -/
  | fails (r : RowData)
  /-- the row parses and its detail page processes normally. -/
  | ok (r : RowData) (anchors : List Anchor) (currentUrl : String)
      (inferredK : Option String) (fetchText : Option String)
deriving DecidableEq

/-- The crawled site: listing contents per browser state and the
`try_next_page` verdict per browser state. -/
structure Site where
  listing : Nat → List RawRow
  advance : Nat → Bool

/-- `collect_page_rows` (parsing.py 469-503): rows that fail to parse are
dropped, the rest are kept in order. -/
def collect_page_rows (rows : List RawRow) : List RawRow :=
  rows.filter fun r => match r with
    | RawRow.bad => false
    | _ => true

/-- Observable events of one crawl run, in order. -/
inductive Event where
  /-- a row was skipped because resume is on and its listing identifier is
  in the seen set (parsing.py 694-697): no detail tab, no network. -/
  | skippedResume (k : String)
  /-- the row's detail link was opened in a new tab (network activity). -/
  | fetched (k : String)
  /-- detail processing raised and the row was skipped. -/
  | rowFailed (k : String)
  /-- a record with this identifier was appended and flushed. -/
  | wrote (k : String)
  /-- `try_next_page` was called and reported this verdict. -/
  | paginated (ok : Bool)
deriving DecidableEq

/-- The in-memory crawl state: browser listing state, 1-based page
counter, `consecutive_empty_pages`, output-file contents, `total_written`
and the event trace. -/
structure CrawlState where
  cursor : Nat
  page : Nat
  empties : Nat
  file : List Record
  written : Nat
  events : List Event
deriving DecidableEq

/-- Why the crawl loop stopped. -/
inductive TermReason where
  | fuelOut
  | emptyLimit
  | noNextPage
  | maxPagesReached
deriving DecidableEq

/-- One loop iteration's result: continue with a new state, or stop. -/
inductive StepOut where
  | cont (st : CrawlState)
  | stop (st : CrawlState) (r : TermReason)
deriving DecidableEq

/-- The state carried by a `StepOut`. -/
def StepOut.state : StepOut → CrawlState
  | .cont st => st
  | .stop st _ => st

/-- Processing of one parsed row inside the row loop (parsing.py
694-727): the resume skip, the detail tab, error absorption, and the
append + flush of the enriched record. -/
def processRow (resume : Bool) (seen : List String) (st : CrawlState)
    (row : RawRow) : CrawlState :=
  match row with
  | RawRow.bad => st
  | RawRow.fails r =>
      if resume = true ∧ r.k_number ∈ seen then
        { st with events := st.events ++ [Event.skippedResume r.k_number] }
      else
        { st with events := st.events ++ [Event.fetched r.k_number, Event.rowFailed r.k_number] }
  | RawRow.ok r anchors currentUrl inferredK fetchText =>
      if resume = true ∧ r.k_number ∈ seen then
        { st with events := st.events ++ [Event.skippedResume r.k_number] }
      else
        let enriched := process_detail_page anchors currentUrl inferredK fetchText r
        { st with
            events := st.events ++ [Event.fetched r.k_number, Event.wrote enriched.k_number],
            file := st.file ++ [enriched],
            written := st.written + 1 }

/-- One iteration of the `while True:` loop of `crawl_fda_510k`
(parsing.py 666-736): collect rows, handle the empty-page counter and its
limit of 3, otherwise process every row and check `max_pages`.  Note that
after a non-empty page the source increments `page` and loops without
calling `try_next_page`, so `cursor` is unchanged on that path. -/
def crawlStep (site : Site) (resume : Bool) (seen : List String)
    (maxPages : Nat) (st : CrawlState) : StepOut :=
  let items := collect_page_rows (site.listing st.cursor)
  if items.isEmpty then
    let st1 := { st with empties := st.empties + 1 }
    if 3 ≤ st1.empties then StepOut.stop st1 TermReason.emptyLimit
    else if site.advance st.cursor then
      StepOut.cont { st1 with
        cursor := st1.cursor + 1,
        page := st1.page + 1,
        events := st1.events ++ [Event.paginated true] }
    else
      StepOut.stop { st1 with events := st1.events ++ [Event.paginated false] }
        TermReason.noNextPage
  else
    let st1 := { st with empties := 0 }
    let st2 := items.foldl (processRow resume seen) st1
    if 0 < maxPages ∧ maxPages ≤ st2.page then
      StepOut.stop st2 TermReason.maxPagesReached
    else StepOut.cont { st2 with page := st2.page + 1 }

/-- The fuel-indexed crawl loop. -/
def crawlLoop (site : Site) (resume : Bool) (seen : List String)
    (maxPages : Nat) : Nat → CrawlState → CrawlState × TermReason
  | 0, st => (st, TermReason.fuelOut)
  | fuel + 1, st =>
      match crawlStep site resume seen maxPages st with
      | StepOut.stop st1 r => (st1, r)
      | StepOut.cont st1 => crawlLoop site resume seen maxPages fuel st1

/-- The seen set rebuilt from the existing output file at startup
(parsing.py 629-642): the identifiers of its records. -/
def seenFromFile (file : List Record) : List String := file.map Record.k_number

/-- File open modes of the output stream. -/
inductive FileMode where
  | read
  | write
  | append
deriving DecidableEq

/-- Opening a file returns the initial write buffer: append keeps the
existing contents, write truncates them. -/
def openFile (mode : FileMode) (existing : List Record) : List Record :=
  match mode with
  | FileMode.append => existing
  | FileMode.write => []
  | FileMode.read => existing

/-- `crawl_fda_510k` (parsing.py 617-744): rebuild the seen set when
resume is on, open the output in append mode (parsing.py 665), and run the
crawl loop from page 1. -/
def crawl_fda_510k (site : Site) (resume : Bool) (existingOut : List Record)
    (maxPages fuel : Nat) : CrawlState × TermReason :=
  let seen := if resume then seenFromFile existingOut else []
  crawlLoop site resume seen maxPages fuel
    { cursor := 0, page := 1, empties := 0,
      file := openFile FileMode.append existingOut, written := 0, events := [] }

/-! ## Concrete instances used by individual claims -/

/-- A detail-page link to a decision letter PDF. -/
def c7letter : Anchor :=
  ⟨"Decision Letter.pdf", "https://www.accessdata.fda.gov/cdrh_docs/pdf24/K240001L.pdf"⟩

/-- A detail-page link to a decision summary PDF. -/
def c7summary : Anchor :=
  ⟨"Decision Summary.pdf", "https://www.accessdata.fda.gov/cdrh_docs/pdf24/K240001S.pdf"⟩

/-- A listing row for the tier-selection example. -/
def c7row : RowData :=
  ⟨"K240001", "Implant", "Acme", "2024-01-01",
   "https://www.accessdata.fda.gov/scripts/cdrh/cfdocs/cfPMN/pmn.cfm?ID=K240001"⟩

/-- A pagination world where the `'>'` arrow lands on a page with a changed
signature but zero result rows, while the reconstructed-URL strategy would
land on a changed page with ten rows. -/
def c4world : PagWorld :=
  ⟨"K1||dev", some 1, true, some ⟨"K2||dev2", 0⟩, false, none, some ⟨"K3||dev3", 10⟩⟩

/-- A well-formed listing row with a distinct identifier. -/
def c2row : RowData :=
  ⟨"K240001", "Implant", "Acme", "2024-01-01", "https://fda/pmn.cfm?ID=K240001"⟩

/-- A site with a single one-row listing page and no further pages. -/
def c2site : Site :=
  ⟨fun i => if i = 0 then [RawRow.ok c2row [] "https://fda/detail" none none] else [],
   fun _ => false⟩

/-- A listing row whose first-column text is not the authoritative
identifier: the detail page's body carries `K123456`. -/
def c1row : RowData :=
  ⟨"KOLD", "Implant", "Acme", "2024-01-01", "https://fda/pmn.cfm?ID=KOLD"⟩

/-- A site with a single one-row listing page whose detail page corrects
the identifier to `K123456`. -/
def c1site : Site :=
  ⟨fun i => if i = 0 then [RawRow.ok c1row [] "https://fda/detail" (some "K123456") none] else [],
   fun _ => false⟩

/-- The output file produced by a first resumed run over `c1site`. -/
def c1run1file : List Record := (crawl_fda_510k c1site true [] 1 5).1.file

/-- A site whose every listing page contains one row that raises during
parsing, so `collect_page_rows` yields zero items while pagination keeps
succeeding. -/
def c6site : Site := ⟨fun _ => [RawRow.bad], fun _ => true⟩

/-! # Theorems -/

/-- **C3, claim as stated is false.** A response whose final URL ends in
`.pdf`, whose Content-Type is `text/html` and whose Content-Disposition is
empty is *accepted* by `extract_pdf_text_with_session` (the URL-extension
signal alone is positive), and its text is extracted — the function does
not return null. -/
theorem C3_counterexample :
    (extract_pdf_text_with_session
      (fun _ => AttemptInput.got
        ⟨"https://www.accessdata.fda.gov/K240001.pdf", "text/html", ""⟩
        (ParseOutcome.pages ["Device summary text"])) 3).1 = some "Device summary text" ∧
    (extract_pdf_text_with_session
      (fun _ => AttemptInput.got
        ⟨"https://www.accessdata.fda.gov/K240001.pdf", "text/html", ""⟩
        (ParseOutcome.pages ["Device summary text"])) 3).1 ≠ none := by
  constructor
  · decide
  · decide

/-- **C3, amended.** `extract_pdf_text_with_session` rejects a response as
not a PDF (returning null on the first attempt, with no retries and no
backoff sleeps) exactly when all three signals are negative: the resolved
final URL does not end in `.pdf`, the Content-Type lacks
`application/pdf`, and the Content-Disposition lacks a `.pdf` filename
hint. -/
theorem C3_reject_needs_all_signals_negative (r : Response) (p : ParseOutcome)
    (h1 : strEndsWith (strLower r.finalUrl) ".pdf" = false)
    (h2 : strContains (strLower r.contentType) "application/pdf" = false)
    (h3 : strContains (strLower r.contentDispo) ".pdf" = false) :
    extract_pdf_text_with_session (fun _ => AttemptInput.got r p) 3 = (none, 1, []) := by
  have hb : attemptBody r p = Except.ok none := by
    unfold attemptBody
    simp [h1, h2, h3]
  simp [extract_pdf_text_with_session, extractGo, runAttempt, hb]

/-- Witness for C3's amended theorem at a concrete non-PDF response. -/
theorem C3_reject_witness :
    extract_pdf_text_with_session
      (fun _ => AttemptInput.got
        ⟨"https://www.accessdata.fda.gov/scripts/page.cfm", "text/html", ""⟩
        (ParseOutcome.pages ["ignored"])) 3 = (none, 1, []) :=
  C3_reject_needs_all_signals_negative
    ⟨"https://www.accessdata.fda.gov/scripts/page.cfm", "text/html", ""⟩
    (ParseOutcome.pages ["ignored"]) (by decide) (by decide) (by decide)

/-- `process_detail_page` with a null fetch result still yields a record,
with `summary_text` absent. -/
theorem process_detail_page_null_fetch (anchors : List Anchor) (currentUrl : String)
    (inferredK : Option String) (it : RowData) :
    (process_detail_page anchors currentUrl inferredK none it).summary_text = none := by
  unfold process_detail_page
  rcases find_best_pdf_link_on_detail anchors with ⟨u, t⟩
  cases u <;> rfl

/-- **C5.** If every attempt raises a transient exception (in particular
when every HTTP GET raises), `extract_pdf_text_with_session` makes exactly
3 attempts, sleeps `1.2 ^ attempt` seconds (modelled as the exact rational
`6/5`) between consecutive attempts, returns null instead of raising, and
the row's record is still produced with `summary_text = null`. -/
theorem C5_three_attempts_then_null (input : Nat → AttemptInput)
    (h : ∀ i, input i = AttemptInput.getRaise) :
    extract_pdf_text_with_session input 3 =
      (none, 3, [(6 : ℚ)/5, ((6 : ℚ)/5) ^ 2]) ∧
    ∀ (anchors : List Anchor) (currentUrl : String) (inferredK : Option String)
      (it : RowData),
      (process_detail_page anchors currentUrl inferredK
        (extract_pdf_text_with_session input 3).1 it).summary_text = none := by
  have hmain : extract_pdf_text_with_session input 3 =
      (none, 3, [(6 : ℚ)/5, ((6 : ℚ)/5) ^ 2]) := by
    simp [extract_pdf_text_with_session, extractGo, runAttempt, h, pow_one]
  refine ⟨hmain, fun anchors currentUrl inferredK it => ?_⟩
  rw [hmain]
  exact process_detail_page_null_fetch anchors currentUrl inferredK it

/-- Witness for C5 at the oracle whose every GET raises. -/
theorem C5_witness :
    extract_pdf_text_with_session (fun _ => AttemptInput.getRaise) 3 =
      (none, 3, [(6 : ℚ)/5, ((6 : ℚ)/5) ^ 2]) :=
  (C5_three_attempts_then_null (fun _ => AttemptInput.getRaise) (fun _ => rfl)).1

/-- **C2 (code bug).** On a site with a single listing page holding one
well-formed row and `max_pages = 2`, a run without resume appends the same
identifier twice: after a non-empty page the loop never calls
`try_next_page`, re-collects the same listing and re-writes its rows, so
the identifiers appended in one run are not pairwise distinct. -/
theorem C2_duplicate_identifiers_one_run :
    (crawl_fda_510k c2site false [] 2 5).1.file.map Record.k_number
      = ["K240001", "K240001"] ∧
    ¬ ((crawl_fda_510k c2site false [] 2 5).1.file.map Record.k_number).Nodup ∧
    (crawl_fda_510k c2site false [] 2 5).2 = TermReason.maxPagesReached := by
  refine ⟨by decide, by decide, by decide⟩

/-- `processRow` never touches the empty-page counter. -/
theorem processRow_empties (resume : Bool) (seen : List String) (st : CrawlState)
    (row : RawRow) : (processRow resume seen st row).empties = st.empties := by
  cases row with
  | bad => rfl
  | fails r => simp only [processRow]; split <;> rfl
  | ok r anchors currentUrl inferredK fetchText => simp only [processRow]; split <;> rfl

/-- Folding `processRow` over a page's rows never touches the empty-page
counter. -/
theorem foldl_processRow_empties (resume : Bool) (seen : List String)
    (items : List RawRow) : ∀ st : CrawlState,
    (items.foldl (processRow resume seen) st).empties = st.empties := by
  induction items with
  | nil => intro st; rfl
  | cons row rest ih =>
      intro st
      rw [List.foldl_cons, ih, processRow_empties]

/-- **C6.** In every run: a page yielding at least one row resets
`consecutiveEmptyPages` to 0; a zero-row page increments it; and the third
consecutive empty page stops the loop with the `emptyLimit` reason,
leaving the state otherwise untouched — in particular no pagination event
is recorded (no further pagination is attempted) and no error is raised. -/
theorem C6_empty_page_counter (site : Site) (resume : Bool) (seen : List String)
    (maxPages : Nat) (st : CrawlState) (fuel : Nat) :
    (collect_page_rows (site.listing st.cursor) ≠ [] →
      (crawlStep site resume seen maxPages st).state.empties = 0) ∧
    (collect_page_rows (site.listing st.cursor) = [] →
      (crawlStep site resume seen maxPages st).state.empties = st.empties + 1) ∧
    (collect_page_rows (site.listing st.cursor) = [] → 2 ≤ st.empties →
      crawlStep site resume seen maxPages st =
        StepOut.stop { st with empties := st.empties + 1 } TermReason.emptyLimit) ∧
    (collect_page_rows (site.listing st.cursor) = [] → 2 ≤ st.empties →
      crawlLoop site resume seen maxPages (fuel + 1) st =
        ({ st with empties := st.empties + 1 }, TermReason.emptyLimit)) := by
  have hstep : collect_page_rows (site.listing st.cursor) = [] → 2 ≤ st.empties →
      crawlStep site resume seen maxPages st =
        StepOut.stop { st with empties := st.empties + 1 } TermReason.emptyLimit := by
    intro hempty hcnt
    unfold crawlStep
    rw [hempty]
    simp only [List.isEmpty_nil, if_true]
    have h3 : 3 ≤ st.empties + 1 := by omega
    simp [h3]
  refine ⟨?_, ?_, hstep, ?_⟩
  · intro hne
    have hne2 : (collect_page_rows (site.listing st.cursor)).isEmpty = false := by
      cases h : collect_page_rows (site.listing st.cursor) with
      | nil => exact absurd h hne
      | cons a l => rfl
    unfold crawlStep
    simp only [hne2, Bool.false_eq_true, if_false]
    split
    · exact foldl_processRow_empties resume seen _ _
    · exact foldl_processRow_empties resume seen _ _
  · intro hempty
    unfold crawlStep
    rw [hempty]
    simp only [List.isEmpty_nil, if_true]
    split
    · rfl
    · split
      · rfl
      · rfl
  · intro hempty hcnt
    rw [show fuel + 1 = fuel + 1 from rfl, crawlLoop, hstep hempty hcnt]

/-- Witness for C6: a state with two prior consecutive empty pages and a
third unparseable (hence zero-row) page stops the loop with `emptyLimit`
and no further pagination. -/
theorem C6_witness :
    crawlLoop c6site true [] 0 5 ⟨2, 3, 2, [], 0, []⟩ =
      (⟨2, 3, 3, [], 0, []⟩, TermReason.emptyLimit) :=
  (C6_empty_page_counter c6site true [] 0 ⟨2, 3, 2, [], 0, []⟩ 4).2.2.2
    (by decide) (by decide)

/-- **C9.** For every invocation of `open_in_new_tab_and_process` from a
single-window main context, on every exit path — a normal return, an
exception from the processing function, and even a failure of the
window-open/wait setup — the final window set equals the original one (any
tab opened by the call is closed) and the focus is back on the original
main window. -/
theorem C9_tab_closed_focus_restored {α : Type} (st : Win) (newHandle : String)
    (opens : Bool) (proc : ProcOutcome α)
    (hw : st.windows = [st.focus]) (hn : newHandle ≠ st.focus) :
    (open_in_new_tab_and_process st newHandle opens proc).2.windows = st.windows ∧
    (open_in_new_tab_and_process st newHandle opens proc).2.focus = st.focus := by
  cases opens with
  | false =>
      unfold open_in_new_tab_and_process window_open
      simp [hw]
  | true =>
      unfold open_in_new_tab_and_process window_open switch_to close_current
      simp only [if_true, hw]
      have hlen : ([st.focus] ++ [newHandle]).length = 2 := rfl
      rw [hlen]
      simp only [if_true]
      have hfilter : ([st.focus] ++ [newHandle]).filter (fun h => decide (h ≠ st.focus))
          = [newHandle] := by
        simp [List.filter, hn]
      rw [hfilter]
      have herase : [st.focus, newHandle].erase newHandle = [st.focus] := by
        simp [List.erase_cons, Ne.symm hn, beq_iff_eq]
      cases proc <;> simp [herase]

/-- Witness for C9 on the exception path: the processing function raises,
yet the tab is closed and focus returns to the main window. -/
theorem C9_witness :
    (open_in_new_tab_and_process (α := Nat) ⟨["main"], "main"⟩ "tab" true
      ProcOutcome.raise).2.windows = ["main"] ∧
    (open_in_new_tab_and_process (α := Nat) ⟨["main"], "main"⟩ "tab" true
      ProcOutcome.raise).2.focus = "main" :=
  C9_tab_closed_focus_restored ⟨["main"], "main"⟩ "tab" true ProcOutcome.raise
    rfl (by decide)

/-- With resume on, `processRow` only emits a fetch event for an
identifier outside the seen set. -/
theorem processRow_fetched (seen : List String) (st : CrawlState) (row : RawRow)
    (k : String)
    (h : Event.fetched k ∈ (processRow true seen st row).events) :
    Event.fetched k ∈ st.events ∨ k ∉ seen := by
  cases row with
  | bad => exact Or.inl h
  | fails r =>
      simp only [processRow] at h
      split at h <;>
        simp only [List.mem_append, List.mem_cons, List.not_mem_nil, or_false] at h
      · rcases h with h | h
        · exact Or.inl h
        · exact absurd h (by simp)
      · rcases h with h | h | h
        · exact Or.inl h
        · rename_i hc
          right
          have hk : k = r.k_number := by injection h
          rw [hk]
          intro hmem
          exact hc ⟨by trivial, hmem⟩
        · exact absurd h (by simp)
  | ok r anchors currentUrl inferredK fetchText =>
      simp only [processRow] at h
      split at h <;>
        simp only [List.mem_append, List.mem_cons, List.not_mem_nil, or_false] at h
      · rcases h with h | h
        · exact Or.inl h
        · exact absurd h (by simp)
      · rcases h with h | h | h
        · exact Or.inl h
        · rename_i hc
          right
          have hk : k = r.k_number := by injection h
          rw [hk]
          intro hmem
          exact hc ⟨by trivial, hmem⟩
        · exact absurd h (by simp)

/-- Fetch events emitted while folding a page's rows concern only
identifiers outside the seen set. -/
theorem foldl_processRow_fetched (seen : List String) (items : List RawRow) :
    ∀ (st : CrawlState) (k : String),
    Event.fetched k ∈ (items.foldl (processRow true seen) st).events →
    Event.fetched k ∈ st.events ∨ k ∉ seen := by
  induction items with
  | nil => intro st k h; exact Or.inl h
  | cons row rest ih =>
      intro st k h
      rcases ih (processRow true seen st row) k h with h1 | h1
      · exact processRow_fetched seen st row k h1
      · exact Or.inr h1

/-- Fetch events emitted by one loop iteration concern only identifiers
outside the seen set. -/
theorem crawlStep_fetched (site : Site) (seen : List String) (maxPages : Nat)
    (st : CrawlState) (k : String)
    (h : Event.fetched k ∈ (crawlStep site true seen maxPages st).state.events) :
    Event.fetched k ∈ st.events ∨ k ∉ seen := by
  simp only [crawlStep] at h
  split at h
  · split at h
    · exact Or.inl h
    · split at h
      · simp only [StepOut.state, List.mem_append, List.mem_cons,
          List.not_mem_nil, or_false] at h
        rcases h with h | h
        · exact Or.inl h
        · exact absurd h (by simp)
      · simp only [StepOut.state, List.mem_append, List.mem_cons,
          List.not_mem_nil, or_false] at h
        rcases h with h | h
        · exact Or.inl h
        · exact absurd h (by simp)
  · split at h
    · simp only [StepOut.state] at h
      have h2 := foldl_processRow_fetched seen _ _ k h
      exact h2
    · simp only [StepOut.state] at h
      have h2 := foldl_processRow_fetched seen _ _ k h
      exact h2

/-- Fetch events emitted by the whole loop concern only identifiers
outside the seen set. -/
theorem crawlLoop_fetched (site : Site) (seen : List String) (maxPages : Nat) :
    ∀ (fuel : Nat) (st : CrawlState) (k : String),
    Event.fetched k ∈ (crawlLoop site true seen maxPages fuel st).1.events →
    Event.fetched k ∈ st.events ∨ k ∉ seen := by
  intro fuel
  induction fuel with
  | zero => intro st k h; exact Or.inl h
  | succ fuel ih =>
      intro st k h
      rw [crawlLoop] at h
      cases hs : crawlStep site true seen maxPages st with
      | stop st1 r =>
          rw [hs] at h
          exact crawlStep_fetched site seen maxPages st k (by rw [hs]; exact h)
      | cont st1 =>
          rw [hs] at h
          rcases ih st1 k h with h1 | h1
          · exact crawlStep_fetched site seen maxPages st k (by rw [hs]; exact h1)
          · exact Or.inr h1

/-- **C1, amended.** With resume enabled, every row whose listing
identifier is already in the seen set rebuilt from the existing output
file is skipped without opening its detail page: no fetch event for an
identifier of the seen set ever occurs during a resumed run. -/
theorem C1_resume_skip_no_refetch (site : Site) (existing : List Record)
    (maxPages fuel : Nat) (k : String)
    (h : Event.fetched k ∈ (crawl_fda_510k site true existing maxPages fuel).1.events) :
    k ∉ seenFromFile existing := by
  simp only [crawl_fda_510k, if_true] at h
  rcases crawlLoop_fetched site (seenFromFile existing) maxPages fuel _ k h with h1 | h1
  · exact absurd h1 (by simp)
  · exact h1

/-- Witness for C1's amended theorem: on `c1site`, the second resumed run
fetches `KOLD`, and indeed `KOLD` is not among the identifiers written by
the first run. -/
theorem C1_witness : "KOLD" ∉ seenFromFile c1run1file :=
  C1_resume_skip_no_refetch c1site c1run1file 1 5 "KOLD" (by decide)

/-- **C1, claim as stated is false.** The resume skip tests the listing
identifier, but the written identifier is corrected from the detail page
body (parsing.py 606-609), so a second resumed run re-fetches a row whose
written identifier `K123456` is already present in the output, and the
identifiers written across the two successive resumed runs contain a
duplicate. -/
theorem C1_counterexample :
    ((crawl_fda_510k c1site true c1run1file 1 5).1.file.map Record.k_number
      = ["K123456", "K123456"]) ∧
    ¬ ((crawl_fda_510k c1site true c1run1file 1 5).1.file.map Record.k_number).Nodup := by
  refine ⟨by decide, by decide⟩

/-- The selection result always carries one of the four tags, and the
empty tag comes with no link. -/
theorem find_best_cases (anchors : List Anchor) :
    ((find_best_pdf_link_on_detail anchors).2 = "summary" ∨
     (find_best_pdf_link_on_detail anchors).2 = "backup" ∨
     (find_best_pdf_link_on_detail anchors).2 = "any" ∨
     (find_best_pdf_link_on_detail anchors).2 = "") ∧
    ((find_best_pdf_link_on_detail anchors).2 = "" →
      (find_best_pdf_link_on_detail anchors).1 = none) := by
  unfold find_best_pdf_link_on_detail
  rcases classifyAnchors anchors with ⟨s, b, y⟩
  cases s <;> cases b <;> cases y <;> simp

/-- **C8.** Every record emitted by `process_detail_page` has a `pdf_type`
among `summary`, `backup`, `any` and the no-PDF sentinel (the empty
string, which the spec calls `none`); and the no-PDF sentinel implies both
`summary_link` and `summary_text` are absent. -/
theorem C8_pdf_type_domain (anchors : List Anchor) (currentUrl : String)
    (inferredK : Option String) (fetchText : Option String) (it : RowData) :
    ((process_detail_page anchors currentUrl inferredK fetchText it).pdf_type = "summary" ∨
     (process_detail_page anchors currentUrl inferredK fetchText it).pdf_type = "backup" ∨
     (process_detail_page anchors currentUrl inferredK fetchText it).pdf_type = "any" ∨
     (process_detail_page anchors currentUrl inferredK fetchText it).pdf_type = "") ∧
    ((process_detail_page anchors currentUrl inferredK fetchText it).pdf_type = "" →
      (process_detail_page anchors currentUrl inferredK fetchText it).summary_link = none ∧
      (process_detail_page anchors currentUrl inferredK fetchText it).summary_text = none) := by
  have h1 := (find_best_cases anchors).1
  have h2 := (find_best_cases anchors).2
  rcases hsel : find_best_pdf_link_on_detail anchors with ⟨u, t⟩
  rw [hsel] at h1 h2
  simp only at h1 h2
  constructor
  · simpa only [process_detail_page, hsel] using h1
  · intro ht
    have ht2 : t = "" := by
      simpa only [process_detail_page, hsel] using ht
    have hu : u = none := h2 ht2
    simp [process_detail_page, hsel, hu, ht2]

/-- Witness for C8's implication at a detail page with no links. -/
theorem C8_witness :
    (process_detail_page [] "https://fda/detail" none none c2row).summary_link = none ∧
    (process_detail_page [] "https://fda/detail" none none c2row).summary_text = none :=
  (C8_pdf_type_domain [] "https://fda/detail" none none c2row).2 rfl

/-- The head of a filtered list is the first element satisfying the
predicate. -/
theorem filter_head_eq_find (p : Anchor → Bool) (l : List Anchor) :
    (l.filter p).head? = l.find? p := by
  induction l with
  | nil => rfl
  | cons a t ih =>
      by_cases h : p a = true
      · simp [List.filter_cons, List.find?_cons_of_pos _ h, h]
      · simp [List.filter_cons, List.find?_cons_of_neg _ h, h, ih]

/-- The one-pass classifier of `find_best_pdf_link_on_detail` produces,
tier by tier, exactly the document-ordered links of that tier. -/
theorem classifyAnchors_eq (anchors : List Anchor) :
    classifyAnchors anchors =
      ((anchors.filter fun a => anchorTier a == some 1).map Anchor.href,
       (anchors.filter fun a => anchorTier a == some 2).map Anchor.href,
       (anchors.filter fun a => anchorTier a == some 3).map Anchor.href) := by
  induction anchors with
  | nil => rfl
  | cons a rest ih =>
      by_cases h1 : a.href = "" <;>
      cases h2 : is_pdfish a <;>
      cases h3 : summaryHit a <;>
      cases h4 : backupHit a <;>
      simp [classifyAnchors, anchorTier, ih, List.filter_cons, h1, h2, h3, h4]

/-- The source's accumulator-based selection equals the spec's
declarative "first link in document order within the highest non-empty
tier". -/
theorem find_best_eq_specSelect (anchors : List Anchor) :
    find_best_pdf_link_on_detail anchors = specSelectLink anchors := by
  have hsome : ∀ p : Anchor → Bool, ∀ a : Anchor, anchors.find? p = some a →
      ∃ t, (anchors.filter p).map Anchor.href = a.href :: t := by
    intro p a hf
    cases hfl : anchors.filter p with
    | nil =>
        exfalso
        have hh := filter_head_eq_find p anchors
        rw [hfl, hf] at hh
        exact Option.noConfusion hh
    | cons b t =>
        have hh := filter_head_eq_find p anchors
        rw [hfl, hf] at hh
        have hb : b = a := by simpa using hh
        exact ⟨t.map Anchor.href, by rw [hb]; rfl⟩
  have hnone : ∀ p : Anchor → Bool, anchors.find? p = none →
      (anchors.filter p).map Anchor.href = [] := by
    intro p hf
    have hh := filter_head_eq_find p anchors
    rw [hf] at hh
    cases hfl : anchors.filter p with
    | nil => rfl
    | cons b t =>
        rw [hfl] at hh
        simp at hh
  unfold find_best_pdf_link_on_detail specSelectLink
  rw [classifyAnchors_eq]
  rcases hf1 : anchors.find? (fun a => anchorTier a == some 1) with _ | a1
  · rw [hnone _ hf1]
    rcases hf2 : anchors.find? (fun a => anchorTier a == some 2) with _ | a2
    · rw [hnone _ hf2]
      rcases hf3 : anchors.find? (fun a => anchorTier a == some 3) with _ | a3
      · rw [hnone _ hf3]
      · obtain ⟨t, ht⟩ := hsome _ _ hf3
        rw [ht]
    · obtain ⟨t, ht⟩ := hsome _ _ hf2
      rw [ht]
  · obtain ⟨t, ht⟩ := hsome _ _ hf1
    rw [ht]

/-- **C7.** `find_best_pdf_link_on_detail` selects the first link found in
document order within the highest non-empty tier (summary > backup > any);
in particular, on a detail page with a "Decision Letter.pdf" link and a
"Decision Summary.pdf" link, the `pdf_type` of the emitted record is
`summary` and `summary_link` points to the summary PDF. -/
theorem C7_tier_priority_selection :
    (∀ anchors : List Anchor,
      find_best_pdf_link_on_detail anchors = specSelectLink anchors) ∧
    find_best_pdf_link_on_detail [c7letter, c7summary] =
      (some "https://www.accessdata.fda.gov/cdrh_docs/pdf24/K240001S.pdf", "summary") ∧
    (process_detail_page [c7letter, c7summary]
      "https://www.accessdata.fda.gov/scripts/cdrh/cfdocs/cfPMN/pmn.cfm?ID=K240001"
      none (some "device summary text") c7row).pdf_type = "summary" ∧
    (process_detail_page [c7letter, c7summary]
      "https://www.accessdata.fda.gov/scripts/cdrh/cfdocs/cfPMN/pmn.cfm?ID=K240001"
      none (some "device summary text") c7row).summary_link =
      some "https://www.accessdata.fda.gov/cdrh_docs/pdf24/K240001S.pdf" := by
  refine ⟨find_best_eq_specSelect, by decide, by decide, by decide⟩

/-- **C4, claim as stated is false.** In `c4world` the `'>'` arrow lands
on a page whose signature differs but whose row count is zero, and the
reconstructed-URL strategy would land on a changed page with ten rows; the
claim's reading ("attempts ... until one succeeds or all are exhausted",
acceptance requiring both conditions) reports an advance, but
`try_next_page` returns false after the arrow attempt alone — the
remaining strategies are never tried. -/
theorem C4_counterexample :
    (try_next_page c4world).1 = false ∧
    (try_next_page c4world).2 = [AttemptKind.arrow] ∧
    try_next_page_spec c4world = true := by
  refine ⟨by decide, by decide, by decide⟩

set_option maxHeartbeats 2000000 in
/-- **C4, amended.** `try_next_page` attempts its strategies in strict
priority order, but only until the first attempt whose post-attempt
signature differs from the pre-attempt signature: that attempt alone
decides the result — advance is true exactly when its row count is
positive — and lower-priority strategies are skipped afterwards; when no
attempt changes the signature, the advance is false (exhaustion, a
terminal condition, not an error). -/
theorem C4_first_signature_change_decides (w : PagWorld) :
    try_next_page w = try_next_page_amended w := by
  rcases w with ⟨before, pn, ap, apg, nlp, npg, upg⟩
  cases ap <;> rcases pn with _ | n <;> cases nlp <;>
    rcases apg with _ | p1 <;> rcases npg with _ | p2 <;> rcases upg with _ | p3 <;>
    simp only [try_next_page, tnp_strategy2, tnp_strategy3, try_next_page_amended,
      outcomesOf, sigChanged, takeThrough, List.find?, List.map,
      List.nil_append, List.append_nil, List.cons_append, List.singleton_append] <;>
    try rfl
  all_goals (repeat' split) <;> simp_all

/-- `processRow` only ever appends to the output file. -/
theorem processRow_file (resume : Bool) (seen : List String) (st : CrawlState)
    (row : RawRow) : ∃ d, (processRow resume seen st row).file = st.file ++ d := by
  cases row with
  | bad => exact ⟨[], by simp [processRow]⟩
  | fails r =>
      simp only [processRow]
      split
      · exact ⟨[], by simp⟩
      · exact ⟨[], by simp⟩
  | ok r anchors currentUrl inferredK fetchText =>
      simp only [processRow]
      split
      · exact ⟨[], by simp⟩
      · exact ⟨[process_detail_page anchors currentUrl inferredK fetchText r], rfl⟩

/-- The row loop only ever appends to the output file. -/
theorem foldl_processRow_file (resume : Bool) (seen : List String)
    (items : List RawRow) : ∀ st : CrawlState,
    ∃ d, (items.foldl (processRow resume seen) st).file = st.file ++ d := by
  induction items with
  | nil => intro st; exact ⟨[], by simp⟩
  | cons row rest ih =>
      intro st
      obtain ⟨d1, h1⟩ := processRow_file resume seen st row
      obtain ⟨d2, h2⟩ := ih (processRow resume seen st row)
      exact ⟨d1 ++ d2, by rw [List.foldl_cons, h2, h1, List.append_assoc]⟩

/-- One loop iteration only ever appends to the output file. -/
theorem crawlStep_file (site : Site) (resume : Bool) (seen : List String)
    (maxPages : Nat) (st : CrawlState) :
    ∃ d, (crawlStep site resume seen maxPages st).state.file = st.file ++ d := by
  simp only [crawlStep]
  split
  · split
    · exact ⟨[], by simp [StepOut.state]⟩
    · split
      · exact ⟨[], by simp [StepOut.state]⟩
      · exact ⟨[], by simp [StepOut.state]⟩
  · obtain ⟨d, hd⟩ := foldl_processRow_file resume seen
      (collect_page_rows (site.listing st.cursor)) { st with empties := 0 }
    split
    · exact ⟨d, by simpa [StepOut.state] using hd⟩
    · exact ⟨d, by simpa [StepOut.state] using hd⟩

/-- The whole loop only ever appends to the output file. -/
theorem crawlLoop_file (site : Site) (resume : Bool) (seen : List String)
    (maxPages : Nat) : ∀ (fuel : Nat) (st : CrawlState),
    ∃ d, (crawlLoop site resume seen maxPages fuel st).1.file = st.file ++ d := by
  intro fuel
  induction fuel with
  | zero => intro st; exact ⟨[], by simp [crawlLoop]⟩
  | succ fuel ih =>
      intro st
      rw [crawlLoop]
      obtain ⟨d1, h1⟩ := crawlStep_file site resume seen maxPages st
      cases hs : crawlStep site resume seen maxPages st with
      | stop st1 r =>
          rw [hs] at h1
          exact ⟨d1, h1⟩
      | cont st1 =>
          rw [hs] at h1
          simp only [StepOut.state] at h1
          obtain ⟨d2, h2⟩ := ih st1
          exact ⟨d1 ++ d2, by rw [h2, h1]; exact List.append_assoc _ _ _⟩

/-- Disabling resume behaves exactly like resuming over an empty seen
set: the skip test is the only use of the flag. -/
theorem processRow_noresume (seen : List String) (st : CrawlState) (row : RawRow) :
    processRow false seen st row = processRow true [] st row := by
  cases row with
  | bad => rfl
  | fails r => simp [processRow]
  | ok r anchors currentUrl inferredK fetchText => simp [processRow]

/-- One loop iteration with resume disabled equals one with resume over an
empty seen set. -/
theorem crawlStep_noresume (site : Site) (seen : List String) (maxPages : Nat)
    (st : CrawlState) :
    crawlStep site false seen maxPages st = crawlStep site true [] maxPages st := by
  have hfold : ∀ (items : List RawRow) (st1 : CrawlState),
      items.foldl (processRow false seen) st1 = items.foldl (processRow true []) st1 := by
    intro items
    induction items with
    | nil => intro st1; rfl
    | cons row rest ih =>
        intro st1
        rw [List.foldl_cons, List.foldl_cons, processRow_noresume, ih]
  simp only [crawlStep, hfold]

/-- The whole loop with resume disabled equals the loop with resume over
an empty seen set. -/
theorem crawlLoop_noresume (site : Site) (seen : List String) (maxPages : Nat) :
    ∀ (fuel : Nat) (st : CrawlState),
    crawlLoop site false seen maxPages fuel st = crawlLoop site true [] maxPages fuel st := by
  intro fuel
  induction fuel with
  | zero => intro st; rfl
  | succ fuel ih =>
      intro st
      rw [crawlLoop, crawlLoop, crawlStep_noresume]
      cases crawlStep site true [] maxPages st with
      | stop st1 r => rfl
      | cont st1 => exact ih st1

/-- `processRow` is oblivious to previously written file contents: a
prefix added to the file passes through unchanged. -/
theorem processRow_prepend (resume : Bool) (seen : List String) (G : List Record)
    (st : CrawlState) (row : RawRow) :
    processRow resume seen { st with file := G ++ st.file } row =
      { processRow resume seen st row with
        file := G ++ (processRow resume seen st row).file } := by
  cases row with
  | bad => rfl
  | fails r =>
      simp only [processRow]
      split <;> rfl
  | ok r anchors currentUrl inferredK fetchText =>
      simp only [processRow]
      split
      · rfl
      · simp [List.append_assoc]

/-- The row loop is oblivious to previously written file contents. -/
theorem foldl_processRow_prepend (resume : Bool) (seen : List String)
    (G : List Record) (items : List RawRow) : ∀ st : CrawlState,
    items.foldl (processRow resume seen) { st with file := G ++ st.file } =
      { items.foldl (processRow resume seen) st with
        file := G ++ (items.foldl (processRow resume seen) st).file } := by
  induction items with
  | nil => intro st; rfl
  | cons row rest ih =>
      intro st
      rw [List.foldl_cons, List.foldl_cons, processRow_prepend, ih]

/-- One loop iteration is oblivious to previously written file contents. -/
theorem crawlStep_prepend (site : Site) (resume : Bool) (seen : List String)
    (maxPages : Nat) (G : List Record) (st : CrawlState) :
    crawlStep site resume seen maxPages { st with file := G ++ st.file } =
      (match crawlStep site resume seen maxPages st with
       | StepOut.cont s1 => StepOut.cont { s1 with file := G ++ s1.file }
       | StepOut.stop s1 r => StepOut.stop { s1 with file := G ++ s1.file } r) := by
  by_cases h1 : (collect_page_rows (site.listing st.cursor)).isEmpty = true
  · by_cases h2 : 3 ≤ st.empties + 1
    · simp [crawlStep, h1, h2]
    · by_cases h3 : site.advance st.cursor = true
      · simp [crawlStep, h1, h2, h3]
      · simp [crawlStep, h1, h2, h3]
  · have hfold := foldl_processRow_prepend resume seen G
      (collect_page_rows (site.listing st.cursor)) { st with empties := 0 }
    by_cases h4 : 0 < maxPages ∧ maxPages ≤
        ((collect_page_rows (site.listing st.cursor)).foldl (processRow resume seen)
          { st with empties := 0 }).page
    · simp [crawlStep, h1, hfold, h4]
    · simp [crawlStep, h1, hfold, h4]

/-- The whole loop is oblivious to previously written file contents: it
appends the same records, emits the same events and stops for the same
reason, with the pre-existing prefix carried through untouched. -/
theorem crawlLoop_prepend (site : Site) (resume : Bool) (seen : List String)
    (maxPages : Nat) (G : List Record) : ∀ (fuel : Nat) (st : CrawlState),
    crawlLoop site resume seen maxPages fuel { st with file := G ++ st.file } =
      ({ (crawlLoop site resume seen maxPages fuel st).1 with
         file := G ++ (crawlLoop site resume seen maxPages fuel st).1.file },
       (crawlLoop site resume seen maxPages fuel st).2) := by
  intro fuel
  induction fuel with
  | zero => intro st; rfl
  | succ fuel ih =>
      intro st
      rw [crawlLoop, crawlLoop, crawlStep_prepend]
      cases crawlStep site resume seen maxPages st with
      | stop st1 r => rfl
      | cont st1 => exact ih st1

/-- **C10.** The output file is opened in append mode: on every run — with
or without resume — the pre-existing contents are an unchanged prefix of
the final file; and disabling resume only disables seen-set skipping: a
run without resume writes exactly the records (and emits exactly the
events, and stops for exactly the reason) of a resumed run whose existing
output is empty, after the untouched pre-existing records. -/
theorem C10_append_only_resume_only_skips (site : Site) (existing : List Record)
    (maxPages fuel : Nat) :
    (∃ d, (crawl_fda_510k site true existing maxPages fuel).1.file = existing ++ d) ∧
    (∃ d, (crawl_fda_510k site false existing maxPages fuel).1.file = existing ++ d) ∧
    (crawl_fda_510k site false existing maxPages fuel).1.file
      = existing ++ (crawl_fda_510k site true [] maxPages fuel).1.file ∧
    (crawl_fda_510k site false existing maxPages fuel).1.events
      = (crawl_fda_510k site true [] maxPages fuel).1.events ∧
    (crawl_fda_510k site false existing maxPages fuel).2
      = (crawl_fda_510k site true [] maxPages fuel).2 := by
  have hfalse : crawl_fda_510k site false existing maxPages fuel =
      ({ (crawl_fda_510k site true [] maxPages fuel).1 with
         file := existing ++ (crawl_fda_510k site true [] maxPages fuel).1.file },
       (crawl_fda_510k site true [] maxPages fuel).2) := by
    show crawlLoop site false [] maxPages fuel
        { cursor := 0, page := 1, empties := 0, file := existing, written := 0, events := [] } = _
    rw [crawlLoop_noresume]
    have hshift := crawlLoop_prepend site true [] maxPages existing fuel
      { cursor := 0, page := 1, empties := 0, file := [], written := 0, events := [] }
    simpa using hshift
  refine ⟨?_, ?_, ?_, ?_, ?_⟩
  · obtain ⟨d, hd⟩ := crawlLoop_file site true (seenFromFile existing) maxPages fuel
      { cursor := 0, page := 1, empties := 0, file := existing, written := 0, events := [] }
    exact ⟨d, hd⟩
  · exact ⟨(crawl_fda_510k site true [] maxPages fuel).1.file, by rw [hfalse]⟩
  · rw [hfalse]
  · rw [hfalse]
  · rw [hfalse]

end FdaCrawl
